import Mathlib

/-!
Verification of the Habiflow habit-tracking core: the scoring and
habit-lifecycle engine (`src/src/app/context/HabitContext.tsx`), the
client-side encryption module (`src/src/app/lib/crypto.ts`) and the sync
coordinator (`AuthContext`).  TypeScript values are embedded shallowly:
`YYYY-MM-DD` date strings keep their lexicographic `<` comparison, machine
numbers become `Nat`/`Int`, and the in-memory store becomes an explicit
`StoreState` record threaded through the operations.
-/

namespace Habiflow

/-! ### Data model (HabitContext.tsx) -/

inductive HabitType where
  | good
  | bad
deriving DecidableEq

inductive HabitStatus where
  | active
  | archived
  | deleted
deriving DecidableEq

inductive LogAction where
  | done
  | indulged
deriving DecidableEq

structure Habit where
  id : String
  name : String
  type : HabitType
  points : Nat
  emoji : String
  status : HabitStatus
deriving DecidableEq

structure HabitLog where
  id : String
  date : String
  habitId : String
  action : LogAction
  timestamp : Nat
deriving DecidableEq

/-- The provider's in-memory state: the habit list, the log list and the
`today` string captured when the provider mounts. -/
structure StoreState where
  habits : List Habit
  logs : List HabitLog
  today : String
deriving DecidableEq

/-! ### Log queries and toggles -/

def getLogsForDate (s : StoreState) (date : String) : List HabitLog :=
  s.logs.filter (fun l => l.date == date)

def isGoodHabitDone (s : StoreState) (habitId date : String) : Bool :=
  s.logs.any (fun l => l.date == date && l.habitId == habitId && l.action == LogAction.done)

def isBadHabitIndulged (s : StoreState) (habitId date : String) : Bool :=
  s.logs.any (fun l => l.date == date && l.habitId == habitId && l.action == LogAction.indulged)

/-- `toggleGoodHabit`: the fresh `crypto.randomUUID()` and `Date.now()` of the
source are passed in as `newId` and `now`. -/
def toggleGoodHabit (s : StoreState) (habitId date : String) (newId : String) (now : Nat) :
    StoreState :=
  match s.logs.find? (fun l => l.date == date && l.habitId == habitId &&
      l.action == LogAction.done) with
  | some existing => { s with logs := s.logs.filter (fun l => l.id != existing.id) }
  | none => { s with logs := s.logs ++
      [{ id := newId, date := date, habitId := habitId, action := LogAction.done,
         timestamp := now }] }

def toggleBadHabit (s : StoreState) (habitId date : String) (newId : String) (now : Nat) :
    StoreState :=
  match s.logs.find? (fun l => l.date == date && l.habitId == habitId &&
      l.action == LogAction.indulged) with
  | some existing => { s with logs := s.logs.filter (fun l => l.id != existing.id) }
  | none => { s with logs := s.logs ++
      [{ id := newId, date := date, habitId := habitId, action := LogAction.indulged,
         timestamp := now }] }

/-! ### Scoring -/

/-- JS string comparison `a < b` (lexicographic on code units), as used on
`YYYY-MM-DD` date strings; written structurally so that it evaluates. -/
def strLtAux : List Char → List Char → Bool
  | [], [] => false
  | [], _ :: _ => true
  | _ :: _, [] => false
  | a :: as, b :: bs =>
    if a.toNat < b.toNat then true
    else if b.toNat < a.toNat then false
    else strLtAux as bs

def strLt (a b : String) : Bool :=
  strLtAux a.data b.data

/-- `Math.floor(points * 0.4)` of the source; for the integer point values in
range the JS float product never crosses an integer boundary, so the floor
agrees with exact rational arithmetic `⌊points * 2 / 5⌋`. -/
def avoidedBonus (points : Nat) : Nat :=
  points * 2 / 5

def calculateDayScore (s : StoreState) (date : String) : Int :=
  let dayLogs := s.logs.filter (fun l => l.date == date)
  if dayLogs.length == 0 then 0
  else
    let isPast : Bool := strLt date s.today
    s.habits.foldl (fun score habit =>
      match habit.type with
      | HabitType.good =>
        if dayLogs.any (fun l => l.habitId == habit.id && l.action == LogAction.done) then
          score + (habit.points : Int)
        else score
      | HabitType.bad =>
        if dayLogs.any (fun l => l.habitId == habit.id && l.action == LogAction.indulged) then
          score - (habit.points : Int)
        else if isPast then score + (avoidedBonus habit.points : Int)
        else score) 0

def getTotalScore (s : StoreState) : Int :=
  let allDates := (s.logs.map (fun l => l.date)).dedup
  (allDates.map (fun date => calculateDayScore s date)).sum

def getScoreLevel (score : Int) : String :=
  if score ≥ 40 then "excellent"
  else if score ≥ 20 then "great"
  else if score ≥ 10 then "good"
  else if score > 0 then "ok"
  else if score == 0 then "neutral"
  else if score > -10 then "slightly-bad"
  else if score > -20 then "bad"
  else "very-bad"

structure DayDetails where
  goodDone : Nat
  badIndulged : Nat
  badAvoided : Nat
  score : Int
deriving DecidableEq

def getDayDetails (s : StoreState) (date : String) : DayDetails :=
  let dayLogs := s.logs.filter (fun l => l.date == date)
  let isPast : Bool := strLt date s.today
  let goodHabits := s.habits.filter (fun h => h.type == HabitType.good &&
    h.status != HabitStatus.archived)
  let badHabits := s.habits.filter (fun h => h.type == HabitType.bad &&
    h.status != HabitStatus.archived)
  let goodDone := (goodHabits.filter (fun h =>
    dayLogs.any (fun l => l.habitId == h.id && l.action == LogAction.done))).length
  let badIndulged := (badHabits.filter (fun h =>
    dayLogs.any (fun l => l.habitId == h.id && l.action == LogAction.indulged))).length
  let badAvoided := if isPast then
      (badHabits.filter (fun h =>
        !dayLogs.any (fun l => l.habitId == h.id && l.action == LogAction.indulged))).length
    else 0
  { goodDone := goodDone, badIndulged := badIndulged, badAvoided := badAvoided,
    score := calculateDayScore s date }

/-! ### Lifecycle operations -/

def addHabit (s : StoreState) (name : String) (type : HabitType) (points : Nat)
    (emoji : String) (newId : String) : StoreState :=
  { s with habits := s.habits ++
      [{ id := newId, name := name, type := type, points := points, emoji := emoji,
         status := HabitStatus.active }] }

def deleteHabit (s : StoreState) (id : String) : StoreState :=
  { s with habits := s.habits.map (fun h =>
      if h.id == id then { h with status := HabitStatus.deleted } else h) }

def archiveHabit (s : StoreState) (id : String) : StoreState :=
  { s with habits := s.habits.map (fun h =>
      if h.id == id then { h with status := HabitStatus.archived } else h) }

def unarchiveHabit (s : StoreState) (id : String) : StoreState :=
  { s with habits := s.habits.map (fun h =>
      if h.id == id then { h with status := HabitStatus.active } else h) }

def permanentlyDeleteHabit (s : StoreState) (id : String) : StoreState :=
  { s with
    habits := s.habits.filter (fun h => h.id != id),
    logs := s.logs.filter (fun l => l.habitId != id) }

/-! ### Crypto module (crypto.ts)

`encryptData`/`decryptData` wire a per-call random salt and IV into the Web
Crypto platform primitives (PBKDF2 key derivation and AES-GCM authenticated
encryption).  The primitives themselves are not part of the repository, so
they are modelled symbolically from the spec (§4.2); the wiring is from the
source.  Randomness is passed in as the `salt`/`iv` arguments. -/

/-- Modelled from the spec: the PBKDF2-SHA256 derived key (platform primitive
`crypto.subtle.deriveKey`) is a 256-bit key determined by the password and
salt; symbolically the key is the pair itself, so an ideal (collision-free)
derivation: distinct passwords with the same salt give distinct keys. -/
structure DerivedKey where
  password : String
  salt : Nat
deriving DecidableEq

def deriveKey (password : String) (salt : Nat) : DerivedKey :=
  { password := password, salt := salt }

/-- Modelled from the spec: an AES-GCM ciphertext (platform primitive
`crypto.subtle.encrypt`) — symbolically, the sealed payload together with the
authentication tag binding the key and IV used to produce it. -/
structure CipherText (α : Type) where
  payload : α
  keyTag : DerivedKey
  ivTag : Nat
deriving DecidableEq

def aesGcmEncrypt {α : Type} (key : DerivedKey) (iv : Nat) (plaintext : α) : CipherText α :=
  { payload := plaintext, keyTag := key, ivTag := iv }

/-- Modelled from the spec: AES-GCM decryption (platform primitive
`crypto.subtle.decrypt`) checks the authentication tag and fails closed —
`none` models the rejected promise — unless key and IV match the ones the
ciphertext was produced under. -/
def aesGcmDecrypt {α : Type} (key : DerivedKey) (iv : Nat) (ct : CipherText α) : Option α :=
  if ct.keyTag = key ∧ ct.ivTag = iv then some ct.payload else none

structure EncryptedBundle (α : Type) where
  ciphertext : CipherText α
  salt : Nat
  iv : Nat
deriving DecidableEq

def encryptData {α : Type} (plaintext : α) (password : String) (salt iv : Nat) :
    EncryptedBundle α :=
  let key := deriveKey password salt
  { ciphertext := aesGcmEncrypt key iv plaintext, salt := salt, iv := iv }

def decryptData {α : Type} (bundle : EncryptedBundle α) (password : String) : Option α :=
  let key := deriveKey password bundle.salt
  aesGcmDecrypt key bundle.iv bundle.ciphertext

/-! ### Sync coordinator (AuthContext)

`signUp` / `signIn` / `pullData` call the external Supabase client; the
authentication outcome and the row table are passed in explicitly.  `JSON`
serialisation of the `{ habits, logs }` payload is treated as the identity on
the structured value. -/

/-- Modelled from the spec: the JSON data-exchange payload `{ habits, logs }`
(§6), with `JSON.stringify`/`JSON.parse` treated as the identity. -/
structure Payload where
  habits : List Habit
  logs : List HabitLog
deriving DecidableEq

/-- One row of the remote `habit_sync` table. -/
structure SyncRow where
  userId : String
  ciphertext : CipherText Payload
  salt : Nat
  iv : Nat
deriving DecidableEq

/-- Modelled from the spec: the remote select-by-user call with
`.single()` semantics — the client returns `(data, error)` where the row is
returned only when exactly one matches; otherwise (in particular when no row
exists for the user) it returns no data together with an error value. -/
def selectSingleResp (table : List SyncRow) (userId : String) : Option SyncRow × Bool :=
  match table.filter (fun r => r.userId == userId) with
  | [r] => (some r, false)
  | _ => (none, true)

/-- Modelled from the spec: the remote insert call; the client reports failure
through a returned error value (the same convention the source's `pushData`
checks after its upsert), never by throwing. -/
def insertRow (table : List SyncRow) (row : SyncRow) (insertFails : Bool) :
    List SyncRow × Bool :=
  if insertFails then (table, true) else (table ++ [row], false)

inductive PullResult where
  | pulled (data : Payload)
  | noRemoteData
  | failed (msg : String)
deriving DecidableEq

/-- `pullData` of AuthContext: fetch the current account's row with
`.single()`, throw on error, return `null` on missing data, then decrypt and
parse.  The catch-block maps a decryption failure to the wrong-password
message and everything else to the thrown error's message. -/
def pullData (table : List SyncRow) (userId : String) (password : String) : PullResult :=
  let resp := selectSingleResp table userId
  if resp.2 then PullResult.failed "Pull failed"
  else
    match resp.1 with
    | none => PullResult.noRemoteData
    | some row =>
      match decryptData { ciphertext := row.ciphertext, salt := row.salt, iv := row.iv }
          password with
      | none => PullResult.failed "Wrong password — could not decrypt data."
      | some payload => PullResult.pulled payload

inductive SignInResult where
  | signedIn (data : Payload)
  | noRemoteData
  | failed (msg : String)
deriving DecidableEq

/-- `signIn` of AuthContext.  `authUser` is the outcome of the external
`auth.signInWithPassword` call (`none` = rejected).  After authentication the
row is fetched with `.single()`; `if (rowErr || !row)` returns `null` (the
no-remote-data result), otherwise the row is decrypted and parsed. -/
def signIn (authUser : Option String) (table : List SyncRow) (password : String) :
    SignInResult :=
  match authUser with
  | none => SignInResult.failed "Sign in failed"
  | some uid =>
    let resp := selectSingleResp table uid
    match resp.1, resp.2 with
    | some row, false =>
      match decryptData { ciphertext := row.ciphertext, salt := row.salt, iv := row.iv }
          password with
      | none => SignInResult.failed "Wrong password — data decryption failed."
      | some payload => SignInResult.signedIn payload
    | _, _ => SignInResult.noRemoteData

inductive SignUpResult where
  | succeeded (table : List SyncRow)
  | failed (msg : String)
deriving DecidableEq

/-- `signUp` of AuthContext.  `authUser` is the outcome of the external
`auth.signUp` call (`none` covers both a rejected call and a missing
`data.user`).  The encrypted row is inserted, but — exactly as in the source —
the insert's error result is discarded and success is reported regardless. -/
def signUp (authUser : Option String) (table : List SyncRow) (habits : List Habit)
    (logs : List HabitLog) (password : String) (salt iv : Nat) (insertFails : Bool) :
    SignUpResult :=
  match authUser with
  | none => SignUpResult.failed "Sign up failed"
  | some uid =>
    let payload : Payload := { habits := habits, logs := logs }
    let encrypted := encryptData payload password salt iv
    let ins := insertRow table
      { userId := uid, ciphertext := encrypted.ciphertext, salt := encrypted.salt,
        iv := encrypted.iv } insertFails
    SignUpResult.succeeded ins.1

/-! ### Helper lemmas about the scoring algorithm -/

/-- Existence, as the source tests it with `.some(...)`, of a log for a given
habit, date and action anywhere in the log collection. -/
def logExists (logs : List HabitLog) (habitId date : String) (a : LogAction) : Bool :=
  logs.any (fun l => l.date == date && (l.habitId == habitId && l.action == a))

/-- The per-habit contribution of the spec's scoring contract (§4.1): `+points`
for a good habit with a `done` log, `-points` for a bad habit with an
`indulged` log, the avoided bonus `⌊points * 0.4⌋` for a non-indulged bad
habit on a day strictly before today, and `0` otherwise. -/
def specContribution (logs : List HabitLog) (today date : String) (h : Habit) : Int :=
  match h.type with
  | HabitType.good =>
    if logExists logs h.id date LogAction.done then (h.points : Int) else 0
  | HabitType.bad =>
    if logExists logs h.id date LogAction.indulged then -(h.points : Int)
    else if strLt date today then (avoidedBonus h.points : Int)
    else 0

theorem foldl_add_eq_sum {α : Type} (f : Int → α → Int) (c : α → Int)
    (hf : ∀ acc a, f acc a = acc + c a) (l : List α) :
    ∀ b : Int, l.foldl f b = b + (l.map c).sum := by
  induction l with
  | nil => intro b; simp
  | cons a t ih => intro b; simp [List.foldl_cons, hf, ih, add_assoc]

theorem any_filter_date (logs : List HabitLog) (hid d : String) (a : LogAction) :
    (logs.filter (fun l => l.date == d)).any
        (fun l => l.habitId == hid && l.action == a) = logExists logs hid d a := by
  induction logs with
  | nil => rfl
  | cons l t ih =>
    simp only [logExists, List.any_cons] at ih ⊢
    by_cases hd : l.date = d
    · by_cases hh : l.habitId = hid
      · by_cases ha : l.action = a <;> simp [List.filter_cons, hd, hh, ha, ih]
      · simp [List.filter_cons, hd, hh, ih]
    · simp [List.filter_cons, hd, ih]

theorem filter_date_eq_nil_iff (logs : List HabitLog) (d : String) :
    logs.filter (fun l => l.date == d) = [] ↔ ∀ l ∈ logs, l.date ≠ d := by
  constructor
  · intro h l hl hd
    have : l ∈ logs.filter (fun l => l.date == d) := by
      simp [List.mem_filter, hl, hd]
    simp [h] at this
  · intro h
    apply List.filter_eq_nil_iff.mpr
    intro l hl
    simp [h l hl]

/-- `calculateDayScore` in closed form: zero for a log-free day, otherwise the
sum of the spec's per-habit contributions. -/
theorem calculateDayScore_eq_spec (s : StoreState) (d : String) :
    calculateDayScore s d =
      if s.logs.filter (fun l => l.date == d) = [] then 0
      else (s.habits.map (specContribution s.logs s.today d)).sum := by
  simp only [calculateDayScore]
  have hstep : ∀ (acc : Int) (hb : Habit),
      (fun score habit =>
        match habit.type with
        | HabitType.good =>
          if (s.logs.filter (fun l => l.date == d)).any
              (fun l => l.habitId == habit.id && l.action == LogAction.done) then
            score + (habit.points : Int)
          else score
        | HabitType.bad =>
          if (s.logs.filter (fun l => l.date == d)).any
              (fun l => l.habitId == habit.id && l.action == LogAction.indulged) then
            score - (habit.points : Int)
          else if strLt d s.today then score + (avoidedBonus habit.points : Int)
          else score) acc hb = acc + specContribution s.logs s.today d hb := by
    intro acc hb
    obtain ⟨hid, hname, ht, hpts, hemoji, hstatus⟩ := hb
    cases ht
    · simp only [specContribution, any_filter_date]
      split <;> simp_all
    · simp only [specContribution, any_filter_date]
      split
      · simp_all [sub_eq_add_neg]
      · split <;> simp_all
  rw [foldl_add_eq_sum _ _ hstep, zero_add]
  by_cases hnil : s.logs.filter (fun l => l.date == d) = []
  · simp [hnil]
  · have : ¬((s.logs.filter (fun l => l.date == d)).length == 0) = true := by
      simp [List.length_eq_zero, hnil]
    simp only [this, if_false, if_neg hnil]
    rfl

theorem calculateDayScore_of_no_logs (s : StoreState) (d : String)
    (h : ∀ l ∈ s.logs, l.date ≠ d) : calculateDayScore s d = 0 := by
  rw [calculateDayScore_eq_spec, if_pos ((filter_date_eq_nil_iff s.logs d).mpr h)]

/-- A status-only update never changes a habit's contribution: the scoring
formula reads only `type`, `id` and `points`. -/
theorem specContribution_status_invariant (logs : List HabitLog) (today d : String)
    (h : Habit) (st : HabitStatus) :
    specContribution logs today d { h with status := st } =
      specContribution logs today d h := rfl

theorem calculateDayScore_status_update (s : StoreState) (id : String) (st : HabitStatus)
    (d : String) :
    calculateDayScore
      { s with habits := s.habits.map (fun h =>
          if h.id == id then { h with status := st } else h) } d =
      calculateDayScore s d := by
  rw [calculateDayScore_eq_spec, calculateDayScore_eq_spec]
  dsimp only
  rw [List.map_map]
  have hmap : s.habits.map (specContribution s.logs s.today d ∘ fun h =>
      if h.id == id then { h with status := st } else h) =
      s.habits.map (specContribution s.logs s.today d) := by
    apply List.map_congr_left
    intro h _
    by_cases hid : (h.id == id) = true
    · simp only [Function.comp, hid, if_true, specContribution_status_invariant]
    · simp only [Function.comp, hid, if_false]
      rw [if_neg]
      simp at hid
      simp [hid]
  rw [hmap]

theorem logExists_eq_true_iff (logs : List HabitLog) (hid d : String) (a : LogAction) :
    logExists logs hid d a = true ↔
      ∃ l ∈ logs, l.date = d ∧ l.habitId = hid ∧ l.action = a := by
  simp [logExists, List.any_eq_true]

theorem no_log_transfer (logs1 logs2 : List HabitLog) (d : String)
    (H : ∀ hid a, logExists logs1 hid d a = logExists logs2 hid d a)
    (h : ∀ l ∈ logs1, l.date ≠ d) : ∀ l ∈ logs2, l.date ≠ d := by
  intro l hl hd
  have h2 : logExists logs2 l.habitId d l.action = true :=
    (logExists_eq_true_iff logs2 l.habitId d l.action).mpr ⟨l, hl, hd, rfl, rfl⟩
  have h1 : logExists logs1 l.habitId d l.action = true := by
    rw [H l.habitId l.action]; exact h2
  obtain ⟨l', hl', hd', -, -⟩ := (logExists_eq_true_iff logs1 l.habitId d l.action).mp h1
  exact h l' hl' hd'

/-- Two stores with the same habits and `today` whose log collections witness
exactly the same (habitId, date, action) triples give equal day scores. -/
theorem calculateDayScore_congr (s1 s2 : StoreState) (hhab : s1.habits = s2.habits)
    (htod : s1.today = s2.today)
    (H : ∀ hid d a, logExists s1.logs hid d a = logExists s2.logs hid d a) (d : String) :
    calculateDayScore s1 d = calculateDayScore s2 d := by
  rw [calculateDayScore_eq_spec, calculateDayScore_eq_spec]
  have hiff : (s1.logs.filter (fun l => l.date == d) = []) ↔
      (s2.logs.filter (fun l => l.date == d) = []) := by
    rw [filter_date_eq_nil_iff, filter_date_eq_nil_iff]
    exact ⟨fun h => no_log_transfer s1.logs s2.logs d (fun hid a => H hid d a) h,
           fun h => no_log_transfer s2.logs s1.logs d (fun hid a => (H hid d a).symm) h⟩
  have hcontrib : ∀ h : Habit,
      specContribution s1.logs s1.today d h = specContribution s2.logs s2.today d h := by
    intro h
    simp only [specContribution, H, htod]
  by_cases h1 : s1.logs.filter (fun l => l.date == d) = []
  · rw [if_pos h1, if_pos (hiff.mp h1)]
  · rw [if_neg h1, if_neg (fun h2 => h1 (hiff.mpr h2)), hhab]
    exact congrArg List.sum (List.map_congr_left fun h _ => hcontrib h)

/-- Both toggles instantiate this one operation (at `done` resp. `indulged`). -/
def toggleLog (s : StoreState) (habitId date : String) (a : LogAction) (newId : String)
    (now : Nat) : StoreState :=
  match s.logs.find? (fun l => l.date == date && l.habitId == habitId && l.action == a) with
  | some existing => { s with logs := s.logs.filter (fun l => l.id != existing.id) }
  | none => { s with logs := s.logs ++
      [{ id := newId, date := date, habitId := habitId, action := a, timestamp := now }] }

theorem toggleGoodHabit_eq_toggleLog (s : StoreState) (hid d nid : String) (now : Nat) :
    toggleGoodHabit s hid d nid now = toggleLog s hid d LogAction.done nid now := rfl

theorem toggleBadHabit_eq_toggleLog (s : StoreState) (hid d nid : String) (now : Nat) :
    toggleBadHabit s hid d nid now = toggleLog s hid d LogAction.indulged nid now := rfl

theorem toggleLog_habits (s : StoreState) (hid d : String) (a : LogAction) (nid : String)
    (now : Nat) : (toggleLog s hid d a nid now).habits = s.habits := by
  rcases hfind : s.logs.find? (fun l => l.date == d && l.habitId == hid && l.action == a)
    with _ | e <;> simp [toggleLog, hfind]

theorem toggleLog_today (s : StoreState) (hid d : String) (a : LogAction) (nid : String)
    (now : Nat) : (toggleLog s hid d a nid now).today = s.today := by
  rcases hfind : s.logs.find? (fun l => l.date == d && l.habitId == hid && l.action == a)
    with _ | e <;> simp [toggleLog, hfind]

/-- The log record a toggle appends. -/
def mkLog (i d hid : String) (a : LogAction) (t : Nat) : HabitLog :=
  { id := i, date := d, habitId := hid, action := a, timestamp := t }

theorem find?_append_of_none {α : Type} (p : α → Bool) (l1 l2 : List α)
    (h : l1.find? p = none) : (l1 ++ l2).find? p = l2.find? p := by
  induction l1 with
  | nil => simp
  | cons x t ih =>
    rw [List.find?_cons] at h
    rw [List.cons_append, List.find?_cons]
    cases hx : p x
    · rw [hx] at h
      exact ih h
    · rw [hx] at h
      simp at h

/-- Toggling the same (habit, date, action) twice in a row leaves the set of
(habitId, date, action) triples witnessed by the log collection unchanged,
provided log ids are pairwise distinct, at most one log exists per triple,
and the first fresh id does not collide with an existing one. -/
theorem toggleLog_twice_logExists (s : StoreState) (hid d : String) (a : LogAction)
    (id1 id2 : String) (t1 t2 : Nat)
    (hnodup : (s.logs.map (fun l => l.id)).Nodup)
    (htrip : s.logs.Pairwise (fun l1 l2 =>
      (l1.date, l1.habitId, l1.action) ≠ (l2.date, l2.habitId, l2.action)))
    (hfresh : id1 ∉ s.logs.map (fun l => l.id)) :
    ∀ hid' d' a',
      logExists (toggleLog (toggleLog s hid d a id1 t1) hid d a id2 t2).logs hid' d' a' =
        logExists s.logs hid' d' a' := by
  intro hid' d' a'
  rcases hfind : s.logs.find? (fun l => l.date == d && l.habitId == hid && l.action == a)
    with _ | e
  · -- no log for the triple: the first toggle appends, the second removes it again
    have hstep1 : toggleLog s hid d a id1 t1 =
        { s with logs := s.logs ++ [mkLog id1 d hid a t1] } := by
      simp only [toggleLog, hfind]
      rfl
    have hfind2 : ((s.logs ++ [mkLog id1 d hid a t1]).find?
          (fun l => l.date == d && l.habitId == hid && l.action == a)) =
        some (mkLog id1 d hid a t1) := by
      rw [find?_append_of_none _ _ _ hfind]
      simp [List.find?_cons, mkLog]
    have hfilter : (s.logs ++ [mkLog id1 d hid a t1]).filter (fun l => l.id != id1) =
        s.logs := by
      rw [List.filter_append]
      have h1 : s.logs.filter (fun l => l.id != id1) = s.logs := by
        apply List.filter_eq_self.mpr
        intro l hl
        simp only [bne_iff_ne, ne_eq]
        intro hle
        exact hfresh (List.mem_map.mpr ⟨l, hl, hle⟩)
      have h2 : ([mkLog id1 d hid a t1]).filter (fun l => l.id != id1) = [] := by
        simp [mkLog]
      rw [h1, h2, List.append_nil]
    rw [hstep1]
    simp only [toggleLog, hfind2]
    simp only [mkLog] at hfilter
    simp only [mkLog, hfilter]
  · -- a log for the triple exists: it is removed, then a fresh one is appended
    have he_mem : e ∈ s.logs := List.mem_of_find?_eq_some hfind
    have he_p := List.find?_some hfind
    simp only [Bool.and_eq_true, beq_iff_eq] at he_p
    obtain ⟨⟨hed, heh⟩, hea⟩ := he_p
    have hstep1 : toggleLog s hid d a id1 t1 =
        { s with logs := s.logs.filter (fun l => l.id != e.id) } := by
      simp only [toggleLog, hfind]
    have hfind2 : ((s.logs.filter (fun l => l.id != e.id)).find?
        (fun l => l.date == d && l.habitId == hid && l.action == a)) = none := by
      apply List.find?_eq_none.mpr
      intro x hx hpx
      simp only [List.mem_filter, bne_iff_ne, ne_eq] at hx
      obtain ⟨hxmem, hxid⟩ := hx
      simp only [Bool.and_eq_true, beq_iff_eq] at hpx
      obtain ⟨⟨hxd, hxh⟩, hxa⟩ := hpx
      have hxe : x ≠ e := fun hEq => hxid (congrArg HabitLog.id hEq)
      have hsymm : Symmetric (fun l1 l2 : HabitLog =>
          (l1.date, l1.habitId, l1.action) ≠ (l2.date, l2.habitId, l2.action)) :=
        fun _ _ hne => Ne.symm hne
      exact htrip.forall hsymm hxmem he_mem hxe
        (by rw [hxd, hxh, hxa, hed, heh, hea])
    rw [hstep1]
    simp only [toggleLog, hfind2]
    -- goal: logExists (filtered ++ [new log]) = logExists s.logs
    simp only [logExists, List.any_append, List.any_cons, List.any_nil, Bool.or_false]
    by_cases hsame : d = d' ∧ hid = hid' ∧ a = a'
    · obtain ⟨h1, h2, h3⟩ := hsame
      have hr : s.logs.any (fun l => l.date == d' && (l.habitId == hid' && l.action == a')) =
          true := by
        apply List.any_eq_true.mpr
        exact ⟨e, he_mem, by simp [hed, heh, hea, h1, h2, h3]⟩
      rw [hr]
      simp [h1, h2, h3]
    · have hqnew : (d == d' && (hid == hid' && a == a')) = false := by
        cases hq : (d == d' && (hid == hid' && a == a'))
        · rfl
        · exfalso
          simp only [Bool.and_eq_true, beq_iff_eq] at hq
          exact hsame ⟨hq.1, hq.2.1, hq.2.2⟩
      rw [hqnew, Bool.or_false]
      have hbool : ∀ x y : Bool, (x = true ↔ y = true) → x = y := by
        intro x y hxy
        cases x <;> cases y <;> simp_all
      apply hbool
      constructor
      · intro hx
        obtain ⟨x, hxmem, hxq⟩ := List.any_eq_true.mp hx
        simp only [List.mem_filter] at hxmem
        exact List.any_eq_true.mpr ⟨x, hxmem.1, hxq⟩
      · intro hx
        obtain ⟨x, hxmem, hxq⟩ := List.any_eq_true.mp hx
        apply List.any_eq_true.mpr
        refine ⟨x, ?_, hxq⟩
        simp only [List.mem_filter, bne_iff_ne, ne_eq]
        refine ⟨hxmem, fun hxid => ?_⟩
        have hxeqe : x = e := List.inj_on_of_nodup_map hnodup hxmem he_mem hxid
        simp only [Bool.and_eq_true, beq_iff_eq] at hxq
        obtain ⟨hxd, hxh, hxa⟩ := hxq
        apply hsame
        rw [hxeqe] at hxd hxh hxa
        exact ⟨hed ▸ hxd, heh ▸ hxh, hea ▸ hxa⟩

theorem toggleLog_twice_score (s : StoreState) (hid d : String) (a : LogAction)
    (id1 id2 : String) (t1 t2 : Nat)
    (hnodup : (s.logs.map (fun l => l.id)).Nodup)
    (htrip : s.logs.Pairwise (fun l1 l2 =>
      (l1.date, l1.habitId, l1.action) ≠ (l2.date, l2.habitId, l2.action)))
    (hfresh : id1 ∉ s.logs.map (fun l => l.id)) (d' : String) :
    calculateDayScore (toggleLog (toggleLog s hid d a id1 t1) hid d a id2 t2) d' =
      calculateDayScore s d' := by
  apply calculateDayScore_congr
  · rw [toggleLog_habits, toggleLog_habits]
  · rw [toggleLog_today, toggleLog_today]
  · exact toggleLog_twice_logExists s hid d a id1 id2 t1 t2 hnodup htrip hfresh

/-! ### Sample data for concrete witnesses -/

def sampleHabitGood : Habit :=
  { id := "h1", name := "Exercise", type := HabitType.good, points := 20, emoji := "E",
    status := HabitStatus.active }

def sampleHabitBad : Habit :=
  { id := "h6", name := "Smoking", type := HabitType.bad, points := 25, emoji := "S",
    status := HabitStatus.active }

def sampleLog : HabitLog :=
  { id := "l1", date := "2024-01-01", habitId := "h1", action := LogAction.done,
    timestamp := 1704067200 }

def sampleState : StoreState :=
  { habits := [sampleHabitGood, sampleHabitBad], logs := [sampleLog], today := "2024-06-01" }

/-! ### Claim theorems -/

/-- C1: for every date with at least one log, `calculateDayScore` equals the
sum over every habit in the store of the spec's contribution: `+points` for a
good habit with a `done` log on that date, `-points` for a bad habit with an
`indulged` log, `+⌊points * 0.4⌋` for a non-indulged bad habit when the date
is strictly before today, and `0` otherwise; the sum is not clamped. -/
theorem calculateDayScore_matches_spec (s : StoreState) (d : String)
    (h : ∃ l ∈ s.logs, l.date = d) :
    calculateDayScore s d = (s.habits.map (specContribution s.logs s.today d)).sum := by
  rw [calculateDayScore_eq_spec]
  rw [if_neg]
  intro hnil
  obtain ⟨l, hl, hd⟩ := h
  exact (filter_date_eq_nil_iff s.logs d).mp hnil l hl hd

theorem calculateDayScore_matches_spec_witness :
    (∃ l ∈ sampleState.logs, l.date = "2024-01-01") ∧
      calculateDayScore sampleState "2024-01-01" =
        (sampleState.habits.map
          (specContribution sampleState.logs sampleState.today "2024-01-01")).sum ∧
      calculateDayScore sampleState "2024-01-01" = 30 :=
  ⟨by decide, calculateDayScore_matches_spec sampleState "2024-01-01" (by decide), by decide⟩

/-- C2: a date with no logs — including today and every future date — scores
exactly 0: no avoided-bad-habit bonus is granted for a day with zero recorded
activity. -/
theorem calculateDayScore_zero_when_no_logs (s : StoreState) (d : String)
    (h : ∀ l ∈ s.logs, l.date ≠ d) : calculateDayScore s d = 0 :=
  calculateDayScore_of_no_logs s d h

theorem calculateDayScore_zero_when_no_logs_witness :
    (∀ l ∈ sampleState.logs, l.date ≠ "2099-12-31") ∧
      calculateDayScore sampleState "2099-12-31" = 0 :=
  ⟨by decide, calculateDayScore_zero_when_no_logs sampleState "2099-12-31" (by decide)⟩

/-- C3: archiving or soft-deleting a habit leaves `calculateDayScore`
unchanged for every date: the score iterates every habit regardless of
status, so status changes never retroactively change a historical score. -/
theorem archive_softDelete_preserve_dayScore (s : StoreState) (id d : String) :
    calculateDayScore (archiveHabit s id) d = calculateDayScore s d ∧
    calculateDayScore (deleteHabit s id) d = calculateDayScore s d :=
  ⟨calculateDayScore_status_update s id HabitStatus.archived d,
   calculateDayScore_status_update s id HabitStatus.deleted d⟩

/-- C7: `getTotalScore` is the sum of `calculateDayScore` over exactly the
set of distinct dates appearing in at least one log. -/
theorem getTotalScore_eq_sum_over_distinct_dates (s : StoreState) :
    getTotalScore s =
      ∑ d ∈ (s.logs.map (fun l => l.date)).toFinset, calculateDayScore s d := by
  have hnd : ((s.logs.map (fun l => l.date)).dedup).Nodup := List.nodup_dedup _
  have h1 : ((s.logs.map (fun l => l.date)).dedup).toFinset =
      (s.logs.map (fun l => l.date)).toFinset := by
    apply Finset.ext
    intro a
    simp [List.mem_toFinset, List.mem_dedup]
  show ((s.logs.map (fun l => l.date)).dedup.map (fun d => calculateDayScore s d)).sum = _
  rw [← List.sum_toFinset _ hnd, h1]

/-- C9: permanent deletion removes the habit and every log referencing it
(and only those), and a date whose logs all referenced that habit reverts to
score 0; archive, soft delete and unarchive leave the log collection
completely unchanged. -/
theorem permanentlyDelete_cascades_logs (s : StoreState) (id d : String)
    (honly : ∀ l ∈ s.logs, l.date = d → l.habitId = id) :
    (∀ l ∈ (permanentlyDeleteHabit s id).logs, l.habitId ≠ id ∧ l ∈ s.logs) ∧
    (∀ l ∈ s.logs, l.habitId ≠ id → l ∈ (permanentlyDeleteHabit s id).logs) ∧
    (∀ h ∈ (permanentlyDeleteHabit s id).habits, h.id ≠ id) ∧
    (archiveHabit s id).logs = s.logs ∧
    (deleteHabit s id).logs = s.logs ∧
    (unarchiveHabit s id).logs = s.logs ∧
    calculateDayScore (permanentlyDeleteHabit s id) d = 0 := by
  refine ⟨?_, ?_, ?_, rfl, rfl, rfl, ?_⟩
  · intro l hl
    simp only [permanentlyDeleteHabit, List.mem_filter, bne_iff_ne, ne_eq] at hl
    exact ⟨hl.2, hl.1⟩
  · intro l hl hne
    simp only [permanentlyDeleteHabit, List.mem_filter, bne_iff_ne, ne_eq]
    exact ⟨hl, hne⟩
  · intro h hh
    simp only [permanentlyDeleteHabit, List.mem_filter, bne_iff_ne, ne_eq] at hh
    exact hh.2
  · apply calculateDayScore_of_no_logs
    intro l hl hd
    simp only [permanentlyDeleteHabit, List.mem_filter, bne_iff_ne, ne_eq] at hl
    exact hl.2 (honly l hl.1 hd)

theorem permanentlyDelete_cascades_logs_witness :
    (∀ l ∈ sampleState.logs, l.date = "2024-01-01" → l.habitId = "h1") ∧
      calculateDayScore (permanentlyDeleteHabit sampleState "h1") "2024-01-01" = 0 :=
  ⟨by decide,
   (permanentlyDelete_cascades_logs sampleState "h1" "2024-01-01" (by decide)).2.2.2.2.2.2⟩

/-- C10 (implicit): `getDayDetails` does not apply the zero-log guard that
`calculateDayScore` applies — on a date strictly before today with zero logs
it reports score 0 yet counts every non-archived bad habit as avoided, so its
counts can disagree with the score for empty past days. -/
theorem getDayDetails_empty_past_day (s : StoreState) (d : String)
    (hpast : strLt d s.today = true) (hempty : ∀ l ∈ s.logs, l.date ≠ d) :
    (getDayDetails s d).score = 0 ∧
    (getDayDetails s d).badAvoided =
      (s.habits.filter (fun h => h.type == HabitType.bad &&
        h.status != HabitStatus.archived)).length := by
  have hnil : s.logs.filter (fun l => l.date == d) = [] :=
    (filter_date_eq_nil_iff s.logs d).mpr hempty
  constructor
  · show calculateDayScore s d = 0
    exact calculateDayScore_of_no_logs s d hempty
  · simp [getDayDetails, hnil, hpast, List.any_nil]

/-- C8: under the at-most-one-log-per-(habitId, date, action) invariant —
log ids pairwise distinct, no two logs sharing a triple, first fresh id not
colliding — toggling a good (resp. bad) habit twice in succession on the same
date restores every day score to its pre-toggle value: creating a second log
for the same triple instead deletes the first. -/
theorem toggle_twice_restores_dayScore (s : StoreState) (hid d id1 id2 : String)
    (t1 t2 : Nat) (d' : String)
    (hnodup : (s.logs.map (fun l => l.id)).Nodup)
    (htrip : s.logs.Pairwise (fun l1 l2 =>
      (l1.date, l1.habitId, l1.action) ≠ (l2.date, l2.habitId, l2.action)))
    (hfresh : id1 ∉ s.logs.map (fun l => l.id)) :
    calculateDayScore (toggleGoodHabit (toggleGoodHabit s hid d id1 t1) hid d id2 t2) d' =
      calculateDayScore s d' ∧
    calculateDayScore (toggleBadHabit (toggleBadHabit s hid d id1 t1) hid d id2 t2) d' =
      calculateDayScore s d' := by
  constructor
  · rw [toggleGoodHabit_eq_toggleLog, toggleGoodHabit_eq_toggleLog]
    exact toggleLog_twice_score s hid d LogAction.done id1 id2 t1 t2 hnodup htrip hfresh d'
  · rw [toggleBadHabit_eq_toggleLog, toggleBadHabit_eq_toggleLog]
    exact toggleLog_twice_score s hid d LogAction.indulged id1 id2 t1 t2 hnodup htrip hfresh d'

theorem toggle_twice_restores_dayScore_witness :
    ((sampleState.logs.map (fun l => l.id)).Nodup ∧
      sampleState.logs.Pairwise (fun l1 l2 =>
        (l1.date, l1.habitId, l1.action) ≠ (l2.date, l2.habitId, l2.action)) ∧
      "l9" ∉ sampleState.logs.map (fun l => l.id)) ∧
    calculateDayScore
        (toggleGoodHabit (toggleGoodHabit sampleState "h6" "2024-01-01" "l9" 5)
          "h6" "2024-01-01" "l10" 6) "2024-01-01" =
      calculateDayScore sampleState "2024-01-01" :=
  ⟨⟨by decide, by decide, by decide⟩,
   (toggle_twice_restores_dayScore sampleState "h6" "2024-01-01" "l9" "l10" 5 6 "2024-01-01"
      (by decide) (by decide) (by decide)).1⟩

/-- C4: decrypting with the password used to encrypt returns exactly the
plaintext, and decrypting with any other password fails closed with an
authentication failure (`none`), never returning plaintext — over the
symbolic model of the platform's PBKDF2/AES-GCM primitives. -/
theorem encryptData_decryptData_roundtrip (plaintext pw1 pw2 : String) (salt iv : Nat) :
    decryptData (encryptData plaintext pw1 salt iv) pw1 = some plaintext ∧
    (pw1 ≠ pw2 → decryptData (encryptData plaintext pw1 salt iv) pw2 = none) := by
  constructor
  · simp [decryptData, encryptData, aesGcmEncrypt, aesGcmDecrypt, deriveKey]
  · intro hne
    dsimp only [decryptData, encryptData, aesGcmEncrypt, aesGcmDecrypt, deriveKey]
    rw [if_neg]
    rintro ⟨hk, -⟩
    exact hne (congrArg DerivedKey.password hk)

theorem encryptData_decryptData_roundtrip_witness :
    decryptData (encryptData "payload" "pw-a" 3 7) "pw-a" = some "payload" ∧
    ("pw-a" : String) ≠ "pw-b" ∧
    decryptData (encryptData "payload" "pw-a" 3 7) "pw-b" = none :=
  ⟨(encryptData_decryptData_roundtrip "payload" "pw-a" "pw-b" 3 7).1, by decide,
   (encryptData_decryptData_roundtrip "payload" "pw-a" "pw-b" 3 7).2 (by decide)⟩

/-- C5: the claim fails on the code — on a signed-in account with no remote row, `signIn` returns
the no-remote-data result, but `pullData` hits the `.single()` error path
(`if (error) throw error`) before its unreachable `if (!data) return null`
branch, so it fails instead of returning the valid empty result. -/
theorem pullData_missing_row_diverges :
    signIn (some "u1") [] "pw" = SignInResult.noRemoteData ∧
    pullData [] "u1" "pw" = PullResult.failed "Pull failed" ∧
    pullData [] "u1" "pw" ≠ PullResult.noRemoteData :=
  ⟨rfl, rfl, by decide⟩

/-- C6: the claim fails on the code — `signUp` fails when remote account creation fails, but when
the encrypted-row insert fails it still reports success — the insert's error
result is discarded by the source — leaving no row behind. -/
theorem signUp_ignores_insert_failure :
    signUp none [] [] [] "pw" 0 0 false = SignUpResult.failed "Sign up failed" ∧
    signUp (some "u1") [] [] [] "pw" 0 0 true = SignUpResult.succeeded [] :=
  ⟨rfl, rfl⟩

theorem getDayDetails_empty_past_day_witness :
    strLt "2023-05-05" sampleState.today = true ∧
      (∀ l ∈ sampleState.logs, l.date ≠ "2023-05-05") ∧
      (getDayDetails sampleState "2023-05-05").score = 0 ∧
      (getDayDetails sampleState "2023-05-05").badAvoided = 1 :=
  ⟨by decide, by decide,
   (getDayDetails_empty_past_day sampleState "2023-05-05" (by decide) (by decide)).1,
   by decide⟩

end Habiflow
